import Mathlib

/-!
Verification development for the Brainzzz brain-graph visualizer
(`BrainVisualizer` component). The definitions below are a shallow
embedding of the component's pure data-shaping logic: snapshot
validation, element construction for the graph engine, edge styling,
the edge-resync update path, the derived statistics, and the
stale-fetch guard. JavaScript numbers are modelled as rationals; the
outcome of a JavaScript division (which can be NaN or ±Infinity) is
modelled by an explicit `JSNum` type.
-/

/-- A neuron record of a brain snapshot (interface `BrainNode`). -/
structure BrainNode where
  id : Int
  type : String
  activation : String
  bias : ℚ
  threshold : ℚ
deriving DecidableEq

/-- A synapse record of a brain snapshot (interface `BrainConnection`).
The source field `from` is a Lean keyword, hence the guillemets. -/
structure BrainConnection where
  id : Int
  «from» : Int
  «to» : Int
  weight : ℚ
  plasticity : ℚ
  enabled : Bool
deriving DecidableEq

/-- A validated brain snapshot (the `brainData` state). -/
structure BrainData where
  id : Int
  nodes : List BrainNode
  connections : List BrainConnection
  gp : ℚ
  fitness : ℚ
  age : ℚ
deriving DecidableEq

/-- Left-pads a digit string with zeros to length `d`. -/
def padZeros (s : String) (d : Nat) : String :=
  String.mk (List.replicate (d - s.length) '0') ++ s

/-- Models `Number.prototype.toFixed(d)` on a rational: the value is
scaled by `10^d`, rounded to the nearest integer, and printed with `d`
decimal digits. (Tie-breaking quirks of binary floating point are not
modelled; no theorem below depends on a tie.) -/
def toFixed (q : ℚ) (d : Nat) : String :=
  let n : Int := round (q * (10 : ℚ) ^ d)
  let sign := if n < 0 then "-" else ""
  let m := n.natAbs
  if d = 0 then sign ++ toString m
  else sign ++ toString (m / 10 ^ d) ++ "." ++ padZeros (toString (m % 10 ^ d)) d

/-- Models `s.charAt(0).toUpperCase()`. -/
def charAtUpper (s : String) : String :=
  match s.toList with
  | [] => ""
  | c :: _ => String.mk [c.toUpper]

/-- The `data` record of a node element handed to the graph engine. -/
structure NodeElementData where
  id : String
  label : String
  type : String
  activation : String
  bias : ℚ
  threshold : ℚ
  fullLabel : String
deriving DecidableEq

/-- The `data` record of an edge element handed to the graph engine. -/
structure EdgeElementData where
  id : String
  source : String
  target : String
  weight : ℚ
  plasticity : ℚ
  enabled : Bool
  label : String
  fullLabel : String
deriving DecidableEq

/-- Builds the node element for one `BrainNode`, as in the
`elements.nodes` mapping of the Cytoscape-initialization effect. -/
def nodeElementData (node : BrainNode) : NodeElementData :=
  { id := toString node.id
    label := charAtUpper node.type ++ toString node.id
    type := node.type
    activation := node.activation
    bias := node.bias
    threshold := node.threshold
    fullLabel := node.type.toUpper ++ " " ++ toString node.id ++ "\n" ++
      node.activation ++ "\nbias: " ++ toFixed node.bias 3 ++
      "\nthreshold: " ++ toFixed node.threshold 3 }

/-- Builds the edge element for one `BrainConnection`, as in the
`elements.edges` mapping of the Cytoscape-initialization effect and,
identically, in the `newEdges` mapping of the resync effect. -/
def edgeElementData (showWeights : Bool) (conn : BrainConnection) : EdgeElementData :=
  { id := "edge_" ++ toString conn.id ++ "_" ++ toString conn.«from» ++ "_" ++ toString conn.«to»
    source := toString conn.«from»
    target := toString conn.«to»
    weight := conn.weight
    plasticity := conn.plasticity
    enabled := conn.enabled
    label := if showWeights then toFixed conn.weight 2 else ""
    fullLabel := "Связь " ++ toString conn.id ++ "\nВес: " ++ toFixed conn.weight 3 ++
      "\nПластичность: " ++ toFixed conn.plasticity 3 ++ "\n" ++
      (if conn.weight > 0 then "Возбуждающая" else "Тормозящая") ++ "\n" ++
      (if conn.enabled then "Активна" else "Неактивна") }

/-- The `elements` object built for the graph engine. -/
structure ElementsSpec where
  nodes : List NodeElementData
  edges : List EdgeElementData
deriving DecidableEq

/-- The `elements` value of the Cytoscape-initialization effect: one
node element per snapshot node; one edge element per connection that
is enabled or shown because disabled-edge visibility is on. -/
def elements (brainData : BrainData) (showDisabledConnections showWeights : Bool) :
    ElementsSpec :=
  { nodes := brainData.nodes.map nodeElementData
    edges := (brainData.connections.filter
        (fun conn => conn.enabled || showDisabledConnections)).map
        (edgeElementData showWeights) }

/-- C1: for every valid snapshot, the element set built for the graph
engine has exactly `nodes.length` node elements, and its edge-element
count equals the count of enabled connections when disabled-edge
visibility is off and the total connection count when it is on. -/
theorem elements_node_and_edge_counts (bd : BrainData) (sw : Bool) :
    (elements bd false sw).nodes.length = bd.nodes.length ∧
    (elements bd true sw).nodes.length = bd.nodes.length ∧
    (elements bd false sw).edges.length =
      (bd.connections.filter (fun c => c.enabled)).length ∧
    (elements bd true sw).edges.length = bd.connections.length := by
  refine ⟨?_, ?_, ?_, ?_⟩ <;> simp [elements]

/-- The pair of style properties set by `applyEdgeStyle`. -/
structure AppliedEdgeStyle where
  lineColor : String
  targetArrowColor : String
deriving DecidableEq

/-- The color computation of `applyEdgeStyle` (and, identically, of
`forceStyleUpdate`): disabled edges are light gray, enabled edges get
a 7-bucket diverging color keyed on the signed weight; the chosen
color is applied to both `line-color` and `target-arrow-color`. -/
def applyEdgeStyle (weight : ℚ) (enabled : Bool) : AppliedEdgeStyle :=
  let color : String :=
    if !enabled then "#d1d5db"
    else if weight > 7/10 then "#059669"
    else if weight > 3/10 then "#10b981"
    else if weight > 0 then "#34d399"
    else if weight < -(7/10) then "#dc2626"
    else if weight < -(3/10) then "#ef4444"
    else if weight < 0 then "#f87171"
    else "#6b7280"
  { lineColor := color, targetArrowColor := color }

/-- Modelled from the spec's words: the 7-bucket diverging scale keyed
on signed weight alone — very-strong-positive (>0.7), strong-positive
(0.3 < w ≤ 0.7), weak-positive (0 < w ≤ 0.3), zero (=0), weak-negative
(−0.3 ≤ w < 0), strong-negative (−0.7 ≤ w < −0.3), very-strong-negative
(<−0.7) — to be compared with `applyEdgeStyle`. -/
def specWeightBucketColor (weight : ℚ) : String :=
  if weight > 7/10 then "#059669"
  else if 3/10 < weight ∧ weight ≤ 7/10 then "#10b981"
  else if 0 < weight ∧ weight ≤ 3/10 then "#34d399"
  else if weight = 0 then "#6b7280"
  else if -(3/10) ≤ weight ∧ weight < 0 then "#f87171"
  else if -(7/10) ≤ weight ∧ weight < -(3/10) then "#ef4444"
  else "#dc2626"

/-- The `width` style function of the edge stylesheet: a constant width
of 1 for disabled edges, `Math.max(1.5, |weight|·4 + 1.5)` for enabled
edges. -/
def edgeWidthStyle (weight : ℚ) (enabled : Bool) : ℚ :=
  let w := |weight|
  if !enabled then 1
  else max (3/2) (w * 4 + 3/2)

/-- The spec's §8 example snapshot: three nodes (input, hidden, output)
and two connections, `1→2 w=0.9 enabled` and `2→3 w=−0.8 disabled`. -/
def exampleBrain : BrainData :=
  { id := 1
    nodes :=
      [ { id := 1, type := "input", activation := "sigmoid", bias := 0, threshold := 0 }
      , { id := 2, type := "hidden", activation := "sigmoid", bias := 0, threshold := 0 }
      , { id := 3, type := "output", activation := "sigmoid", bias := 0, threshold := 0 } ]
    connections :=
      [ { id := 1, «from» := 1, «to» := 2, weight := 9/10, plasticity := 1/10, enabled := true }
      , { id := 2, «from» := 2, «to» := 3, weight := -(4/5), plasticity := 1/10, enabled := false } ]
    gp := 0
    fitness := 0
    age := 0 }

/-- C4 counterexample: the disabled connection of the spec's own
example snapshot is rendered when disabled-edge visibility is on, yet
its applied color is the fixed light gray `#d1d5db`, not the
very-strong-negative bucket color `#dc2626` that the 7-bucket scale
assigns to weight −0.8 — so the applied color of a rendered edge is
not always determined by the signed weight via the 7-bucket scale. -/
theorem applyEdgeStyle_disabled_edge_ignores_buckets :
    ((elements exampleBrain true true).edges.map (fun e => (e.weight, e.enabled))) =
      [((9 : ℚ)/10, true), (-((4 : ℚ)/5), false)] ∧
    (applyEdgeStyle (-((4 : ℚ)/5)) false).lineColor = "#d1d5db" ∧
    specWeightBucketColor (-((4 : ℚ)/5)) = "#dc2626" ∧
    (applyEdgeStyle (-((4 : ℚ)/5)) false).lineColor ≠
      specWeightBucketColor (-((4 : ℚ)/5)) := by
  refine ⟨?_, rfl, ?_, ?_⟩
  · norm_num [elements, exampleBrain, edgeElementData]
  · norm_num [specWeightBucketColor]
  · norm_num [applyEdgeStyle, specWeightBucketColor]
    decide

/-- C4 (amended): for every rendered *enabled* edge, the applied line
and arrowhead color is determined by the signed weight according to
the 7-bucket scale with strict threshold comparisons (in particular
weight 0.7 is strong-positive, not very-strong-positive); a rendered
*disabled* edge is always the fixed light gray `#d1d5db`. -/
theorem applyEdgeStyle_follows_weight_buckets (w : ℚ) :
    (applyEdgeStyle w true).lineColor = specWeightBucketColor w ∧
    (applyEdgeStyle w true).targetArrowColor = specWeightBucketColor w ∧
    (applyEdgeStyle w false).lineColor = "#d1d5db" ∧
    (applyEdgeStyle w false).targetArrowColor = "#d1d5db" := by
  have key : (applyEdgeStyle w true).lineColor = specWeightBucketColor w := by
    by_cases h1 : 7/10 < w
    · simp [applyEdgeStyle, specWeightBucketColor, h1]
    by_cases h2 : 3/10 < w
    · have hc : 3/10 < w ∧ w ≤ 7/10 := ⟨h2, by linarith⟩
      simp [applyEdgeStyle, specWeightBucketColor, h1, h2, hc]
    by_cases h3 : 0 < w
    · have hc : 0 < w ∧ w ≤ 3/10 := ⟨h3, by linarith⟩
      simp [applyEdgeStyle, specWeightBucketColor, h1, h2, h3, hc]
    by_cases h4 : w < -(7/10)
    · have hz : ¬w = 0 := by intro hw; rw [hw] at h4; norm_num at h4
      have hm : ¬(-(3/10) ≤ w) := by intro hw; linarith
      have hs : ¬(-(7/10) ≤ w) := by intro hw; linarith
      simp [applyEdgeStyle, specWeightBucketColor, h1, h2, h3, h4, hz, hm, hs]
    by_cases h5 : w < -(3/10)
    · have hz : ¬w = 0 := by intro hw; rw [hw] at h5; norm_num at h5
      have hm : ¬(-(3/10) ≤ w) := by intro hw; linarith
      have hc : -(7/10) ≤ w ∧ w < -(3/10) := ⟨by linarith, h5⟩
      simp [applyEdgeStyle, specWeightBucketColor, h1, h2, h3, h4, h5, hz, hm, hc]
    by_cases h6 : w < 0
    · have hz : ¬w = 0 := by intro hw; rw [hw] at h6; norm_num at h6
      have hc : -(3/10) ≤ w ∧ w < 0 := ⟨by linarith, h6⟩
      simp [applyEdgeStyle, specWeightBucketColor, h1, h2, h3, h4, h5, h6, hz, hc]
    · have hz : w = 0 := le_antisymm (not_lt.mp h3) (not_lt.mp h6)
      subst hz
      norm_num [applyEdgeStyle, specWeightBucketColor]
  exact ⟨key, key, rfl, rfl⟩

/-- C8: the applied edge width is the constant 1 for a disabled edge
and `max(1.5, |weight|·4 + 1.5)` for an enabled edge, hence the width
of enabled edges is monotonically non-decreasing in `|weight|` and
never below 1.5; an enabled edge of weight 0.9 has width 5.1. -/
theorem edgeWidthStyle_props (w w1 w2 : ℚ) :
    edgeWidthStyle w false = 1 ∧
    edgeWidthStyle w true = max (3/2) (|w| * 4 + 3/2) ∧
    3/2 ≤ edgeWidthStyle w true ∧
    (|w1| ≤ |w2| → edgeWidthStyle w1 true ≤ edgeWidthStyle w2 true) ∧
    edgeWidthStyle (9/10) true = 51/10 := by
  have hex : edgeWidthStyle (9/10) true = 51/10 := by
    have ha : |(9 : ℚ)/10| = 9/10 := abs_of_nonneg (by norm_num)
    calc edgeWidthStyle (9/10) true = max (3/2) (|(9 : ℚ)/10| * 4 + 3/2) := rfl
      _ = max ((3 : ℚ)/2) ((9 : ℚ)/10 * 4 + 3/2) := by rw [ha]
      _ = (9 : ℚ)/10 * 4 + 3/2 := max_eq_right (by norm_num)
      _ = 51/10 := by norm_num
  refine ⟨rfl, rfl, ?_, ?_, hex⟩
  · simp [edgeWidthStyle]
  · intro h
    simp only [edgeWidthStyle, Bool.not_true, if_neg]
    exact max_le_max le_rfl (by linarith)

/-- C8 witness: instantiates `edgeWidthStyle_props` at weights 0.5 and
0.9 and discharges the magnitude hypothesis of the monotonicity part. -/
theorem edgeWidthStyle_props_witness :
    |(1 : ℚ)/2| ≤ |(9 : ℚ)/10| ∧
    edgeWidthStyle ((1 : ℚ)/2) true ≤ edgeWidthStyle ((9 : ℚ)/10) true := by
  have a1 : |(1 : ℚ)/2| = 1/2 := abs_of_nonneg (by norm_num)
  have a2 : |(9 : ℚ)/10| = 9/10 := abs_of_nonneg (by norm_num)
  have hle : |(1 : ℚ)/2| ≤ |(9 : ℚ)/10| := by rw [a1, a2]; norm_num
  exact ⟨hle, (edgeWidthStyle_props 0 (1/2) (9/10)).2.2.2.1 hle⟩

/-- One live element of the graph engine: a node or an edge. -/
inductive CyEl where
  | node (data : NodeElementData)
  | edge (data : EdgeElementData)
deriving DecidableEq

/-- Whether an engine element is an edge (`ele.isEdge()`). -/
def CyEl.isEdge : CyEl → Bool
  | .node _ => false
  | .edge _ => true

/-- The data of the edge elements currently held by the engine
(`cy.elements('edge')`), in insertion order. -/
def cyEdges (st : List CyEl) : List EdgeElementData :=
  st.filterMap (fun e => match e with | .edge d => some d | .node _ => none)

/-- The data of the node elements currently held by the engine
(`cy.elements('node')`), in insertion order. -/
def cyNodes (st : List CyEl) : List NodeElementData :=
  st.filterMap (fun e => match e with | .node d => some d | .edge _ => none)

/-- Engine element set right after the Cytoscape-initialization effect
passed `elements` to the constructor. -/
def initialCyState (brainData : BrainData) (showDisabledConnections showWeights : Bool) :
    List CyEl :=
  (elements brainData showDisabledConnections showWeights).nodes.map CyEl.node ++
    (elements brainData showDisabledConnections showWeights).edges.map CyEl.edge

/-- The `showDisabledConnections` resync effect: `cy.elements('edge').remove()`
removes exactly the edge elements, `filteredConnections` is recomputed from
the unchanged snapshot and the current flags, and `cy.add(newEdges)` appends
the rebuilt edge elements. -/
def updateEdgesEffect (st : List CyEl) (brainData : BrainData)
    (showDisabledConnections showWeights : Bool) : List CyEl :=
  let afterRemove := st.filter (fun e => !e.isEdge)
  let filteredConnections := brainData.connections.filter
      (fun conn => conn.enabled || showDisabledConnections)
  let newEdges := filteredConnections.map (edgeElementData showWeights)
  afterRemove ++ newEdges.map CyEl.edge

theorem cyEdges_append (a b : List CyEl) : cyEdges (a ++ b) = cyEdges a ++ cyEdges b := by
  simp [cyEdges]

theorem cyNodes_append (a b : List CyEl) : cyNodes (a ++ b) = cyNodes a ++ cyNodes b := by
  simp [cyNodes]

theorem cyEdges_of_nonEdges (st : List CyEl) :
    cyEdges (st.filter (fun e => !e.isEdge)) = [] := by
  induction st with
  | nil => rfl
  | cons e rest ih =>
    cases e <;> simp [cyEdges, List.filter, CyEl.isEdge] at ih ⊢ <;>
      simpa [cyEdges] using ih

theorem cyNodes_of_nonEdges (st : List CyEl) :
    cyNodes (st.filter (fun e => !e.isEdge)) = cyNodes st := by
  induction st with
  | nil => rfl
  | cons e rest ih =>
    cases e <;> simp [cyNodes, List.filter, CyEl.isEdge] at ih ⊢ <;>
      simpa [cyNodes] using ih

theorem cyEdges_of_mapEdge (es : List EdgeElementData) :
    cyEdges (es.map CyEl.edge) = es := by
  induction es with
  | nil => rfl
  | cons e rest ih => simpa [cyEdges] using ih

theorem cyNodes_of_mapEdge (es : List EdgeElementData) :
    cyNodes (es.map CyEl.edge) = [] := by
  induction es with
  | nil => rfl
  | cons e rest ih => simp [cyNodes, ih]

/-- After the resync effect, the engine's edge set is exactly the edge
element list recomputed from the snapshot and the current flags. -/
theorem cyEdges_updateEdgesEffect (st : List CyEl) (bd : BrainData) (sd sw : Bool) :
    cyEdges (updateEdgesEffect st bd sd sw) = (elements bd sd sw).edges := by
  simp only [updateEdgesEffect]
  rw [cyEdges_append, cyEdges_of_nonEdges, cyEdges_of_mapEdge, List.nil_append]
  rfl

theorem nonEdges_updateEdgesEffect (st : List CyEl) (bd : BrainData) (sd sw : Bool) :
    (updateEdgesEffect st bd sd sw).filter (fun e => !e.isEdge) =
      st.filter (fun e => !e.isEdge) := by
  simp only [updateEdgesEffect, List.filter_append, List.filter_filter]
  have h1 : ∀ es : List EdgeElementData,
      (es.map CyEl.edge).filter (fun e => !e.isEdge) = [] := by
    intro es
    induction es with
    | nil => rfl
    | cons e rest ih => simp [List.filter, CyEl.isEdge, ih]
  have h2 : st.filter (fun e => !e.isEdge && !e.isEdge) = st.filter (fun e => !e.isEdge) := by
    apply List.filter_congr
    intro e _
    cases e.isEdge <;> rfl
  rw [h1, h2, List.append_nil]

/-- C7: the resync update path removes and re-adds only edge elements —
for every engine state, snapshot and flag values, the node element
list (ids and attached data) is unchanged by the update. -/
theorem updateEdgesEffect_preserves_nodes (st : List CyEl) (bd : BrainData) (sd sw : Bool) :
    cyNodes (updateEdgesEffect st bd sd sw) = cyNodes st := by
  simp only [updateEdgesEffect]
  rw [cyNodes_append, cyNodes_of_nonEdges, cyNodes_of_mapEdge, List.append_nil]

/-- C2: the resync effect recomputes the rendered edge set purely from
the unchanged snapshot and the current flags; toggling disabled-edge
visibility twice returns the rendered edge set to its original
contents (given the engine's edges were in sync with the flags, as the
initialization effect guarantees), and running the update twice with
unchanged ViewState produces the same engine state as running it once. -/
theorem updateEdgesEffect_idempotent_roundtrip (st : List CyEl) (bd : BrainData)
    (sd sw : Bool) (h : cyEdges st = (elements bd sd sw).edges) :
    cyEdges (updateEdgesEffect (updateEdgesEffect st bd (!sd) sw) bd sd sw) =
      cyEdges st ∧
    updateEdgesEffect (updateEdgesEffect st bd sd sw) bd sd sw =
      updateEdgesEffect st bd sd sw := by
  constructor
  · rw [cyEdges_updateEdgesEffect, h]
  · show (updateEdgesEffect st bd sd sw).filter (fun e => !e.isEdge) ++ _ = _
    rw [nonEdges_updateEdgesEffect]
    rfl

/-- C2 witness: instantiates `updateEdgesEffect_idempotent_roundtrip`
on the spec's example snapshot starting from the freshly initialized
engine state with disabled-edge visibility off. -/
theorem updateEdgesEffect_idempotent_roundtrip_witness :
    cyEdges (updateEdgesEffect
        (updateEdgesEffect (initialCyState exampleBrain false true) exampleBrain
          (!false) true)
        exampleBrain false true) =
      cyEdges (initialCyState exampleBrain false true) ∧
    updateEdgesEffect
        (updateEdgesEffect (initialCyState exampleBrain false true) exampleBrain
          false true)
        exampleBrain false true =
      updateEdgesEffect (initialCyState exampleBrain false true) exampleBrain
        false true :=
  updateEdgesEffect_idempotent_roundtrip (initialCyState exampleBrain false true)
    exampleBrain false true
    (by simp [initialCyState, cyEdges_append, cyEdges_of_mapEdge]
        simp [cyEdges, elements])

/-- Result of a JavaScript division on (rational-valued) numbers, which
can be NaN or a signed Infinity besides a finite value. -/
inductive JSNum where
  | fin (q : ℚ)
  | inf (pos : Bool)
  | nan
deriving DecidableEq

/-- JavaScript division `a / b`: division by zero yields NaN when the
numerator is zero and a signed infinity otherwise. (The sign of
JavaScript's negative zero is not modelled; no theorem depends on it.) -/
def jsDiv (a b : ℚ) : JSNum :=
  if b = 0 then (if a = 0 then JSNum.nan else JSNum.inf (0 < a)) else JSNum.fin (a / b)

/-- The record returned by `calculateBrainStats`. The `weightStd` field
holds the radicand of the source's `Math.sqrt` (the variance), since a
square root is in general irrational; `Math.sqrt` is a function of
this value, so equalities proved about the radicand transfer to the
displayed standard deviation. -/
structure BrainStats where
  totalNodes : Nat
  totalConnections : Nat
  networkDensity : JSNum
  avgWeight : JSNum
  weightStd : JSNum
  avgPlasticity : JSNum
  nodeTypes : List (String × Nat)
  positiveConnections : Nat
  negativeConnections : Nat
  strongConnections : Nat
deriving DecidableEq

/-- Models `acc[key] = (acc[key] || 0) + 1` on a JavaScript object used
as a counter map with insertion-ordered string keys. -/
def incrCount (acc : List (String × Nat)) (key : String) : List (String × Nat) :=
  match acc with
  | [] => [(key, 1)]
  | (k, v) :: rest => if k = key then (k, v + 1) :: rest else (k, v) :: incrCount rest key

/-- The statistics derivation `calculateBrainStats`, for a non-null
`brainData`: every weight-derived figure is taken over
`enabledConnections`; the density divides the enabled-edge count by
`nodes.length · (nodes.length − 1)` with plain JavaScript division. -/
def calculateBrainStats (brainData : BrainData) : BrainStats :=
  let enabledConnections := brainData.connections.filter (fun c => c.enabled)
  let weights := enabledConnections.map (fun c => c.weight)
  let plasticities := enabledConnections.map (fun c => c.plasticity)
  let nodeTypes := brainData.nodes.foldl (fun acc node => incrCount acc node.type) []
  { totalNodes := brainData.nodes.length
    totalConnections := enabledConnections.length
    networkDensity := jsDiv (enabledConnections.length : ℚ)
      ((brainData.nodes.length : ℚ) * ((brainData.nodes.length : ℚ) - 1))
    avgWeight := jsDiv (weights.foldl (· + ·) 0) (weights.length : ℚ)
    weightStd := jsDiv
      (weights.foldl
        (fun acc w => acc + (w - weights.foldl (· + ·) 0 / (weights.length : ℚ)) ^ 2) 0)
      (weights.length : ℚ)
    avgPlasticity := jsDiv (plasticities.foldl (· + ·) 0) (plasticities.length : ℚ)
    nodeTypes := nodeTypes
    positiveConnections := (weights.filter (fun w => 0 < w)).length
    negativeConnections := (weights.filter (fun w => w < 0)).length
    strongConnections := (weights.filter (fun w => 1/2 < |w|)).length }

/-- A structurally valid snapshot with no nodes and no connections. -/
def emptyBrain : BrainData :=
  { id := 1, nodes := [], connections := [], gp := 0, fitness := 0, age := 0 }

/-- C5 (code bug): on the valid empty snapshot the density divides
`0 / (0 · (0 − 1)) = 0/0`, which is NaN in JavaScript, not the 0 the
spec requires for snapshots with fewer than 2 nodes; the stats panel
renders this value unguarded (`(networkDensity * 100).toFixed(1)`). -/
theorem networkDensity_nan_on_empty_brain :
    (calculateBrainStats emptyBrain).networkDensity = JSNum.nan ∧
    JSNum.nan ≠ JSNum.fin 0 := by
  constructor
  · norm_num [calculateBrainStats, emptyBrain, jsDiv]
  · decide

/-- C10: every weight-derived statistic is computed over the enabled
connections only — removing a disabled connection from anywhere in the
connection list leaves the entire statistics record unchanged. -/
theorem calculateBrainStats_ignores_disabled (bd : BrainData) (c : BrainConnection)
    (l1 l2 : List BrainConnection) (hconn : bd.connections = l1 ++ c :: l2)
    (hc : c.enabled = false) :
    calculateBrainStats bd = calculateBrainStats { bd with connections := l1 ++ l2 } := by
  have hfilter : bd.connections.filter (fun x => x.enabled) =
      (l1 ++ l2).filter (fun x => x.enabled) := by
    rw [hconn]
    simp [List.filter_append, List.filter_cons, hc]
  simp [calculateBrainStats, hfilter]

/-- C10 witness: dropping the disabled connection of the example
snapshot leaves the statistics record unchanged. -/
theorem calculateBrainStats_ignores_disabled_witness :
    exampleBrain.connections =
      [{ id := 1, «from» := 1, «to» := 2, weight := 9/10, plasticity := 1/10,
         enabled := true }] ++
        ({ id := 2, «from» := 2, «to» := 3, weight := -(4/5), plasticity := 1/10,
           enabled := false } : BrainConnection) :: [] ∧
    ({ id := 2, «from» := 2, «to» := 3, weight := -(4/5), plasticity := 1/10,
       enabled := false } : BrainConnection).enabled = false ∧
    calculateBrainStats exampleBrain =
      calculateBrainStats
        { exampleBrain with
          connections :=
            [{ id := 1, «from» := 1, «to» := 2, weight := 9/10, plasticity := 1/10,
               enabled := true }] ++ [] } :=
  ⟨rfl, rfl, calculateBrainStats_ignores_disabled exampleBrain _ _ _ rfl rfl⟩

/-- The snapshot-acceptance step inside `fetchBrainData`: once the
payload validates, the snapshot is stored and, when it has at least
one connection and every connection is disabled,
`setShowDisabledConnections(true)` forces disabled-edge visibility on;
otherwise the flag keeps its current value. -/
def fetchApplySnapshot (data : BrainData) (showDisabledConnections : Bool) : Bool :=
  if 0 < data.connections.length && data.connections.all (fun c => !c.enabled)
  then true else showDisabledConnections

/-- C6: accepting a snapshot with at least one connection, all of them
disabled, forces disabled-edge visibility on, and the rendered edge
set is then non-empty — it contains one edge element per connection. -/
theorem allDisabled_forces_show_disabled (bd : BrainData) (sd sw : Bool)
    (hne : bd.connections ≠ [])
    (hall : ∀ c ∈ bd.connections, c.enabled = false) :
    fetchApplySnapshot bd sd = true ∧
    (elements bd (fetchApplySnapshot bd sd) sw).edges ≠ [] ∧
    (elements bd (fetchApplySnapshot bd sd) sw).edges.length = bd.connections.length := by
  have hflag : fetchApplySnapshot bd sd = true := by
    have hpos : 0 < bd.connections.length := List.length_pos.mpr hne
    have hallb : bd.connections.all (fun c => !c.enabled) = true := by
      rw [List.all_eq_true]
      intro c hc
      simp [hall c hc]
    simp [fetchApplySnapshot, hpos, hallb]
  have hedges : (elements bd true sw).edges = bd.connections.map (edgeElementData sw) := by
    simp [elements]
  refine ⟨hflag, ?_, ?_⟩
  · rw [hflag, hedges]
    intro h
    exact hne (List.map_eq_nil_iff.mp h)
  · rw [hflag, hedges, List.length_map]

/-- A valid snapshot whose single connection is disabled. -/
def allDisabledBrain : BrainData :=
  { id := 2
    nodes :=
      [ { id := 1, type := "input", activation := "sigmoid", bias := 0, threshold := 0 }
      , { id := 2, type := "output", activation := "sigmoid", bias := 0, threshold := 0 } ]
    connections :=
      [ { id := 1, «from» := 1, «to» := 2, weight := 1/2, plasticity := 0, enabled := false } ]
    gp := 0
    fitness := 0
    age := 0 }

/-- C6 witness: on `allDisabledBrain` the acceptance step switches the
flag on and the rendered edge set is non-empty. -/
theorem allDisabled_forces_show_disabled_witness :
    allDisabledBrain.connections ≠ [] ∧
    fetchApplySnapshot allDisabledBrain false = true ∧
    (elements allDisabledBrain (fetchApplySnapshot allDisabledBrain false) true).edges ≠ [] := by
  have h1 : allDisabledBrain.connections ≠ [] := by simp [allDisabledBrain]
  have h2 : ∀ c ∈ allDisabledBrain.connections, c.enabled = false := by
    intro c hc
    simp [allDisabledBrain] at hc
    rw [hc]
  have main := allDisabled_forces_show_disabled allDisabledBrain false true h1 h2
  exact ⟨h1, main.1, main.2.1⟩

/-- A JavaScript value, as far as the snapshot validator inspects one.
Property access on `null`/`undefined` (which would throw in
JavaScript, with the exception caught by `fetchBrainData` and likewise
ending in rejection) is modelled as yielding `undefinedV`. -/
inductive JSVal where
  | undefinedV
  | nullV
  | boolV (b : Bool)
  | numV (q : ℚ)
  | strV (s : String)
  | arrV (elems : List JSVal)
  | objV (fields : List (String × JSVal))

/-- JavaScript truthiness: `undefined`, `null`, `false`, `0` and the
empty string are falsy; objects and arrays are truthy. (NaN, the other
falsy number, has no rational counterpart.) -/
def truthy : JSVal → Bool
  | .undefinedV => false
  | .nullV => false
  | .boolV b => b
  | .numV q => decide (q ≠ 0)
  | .strV s => !s.isEmpty
  | .arrV _ => true
  | .objV _ => true

/-- Whether `typeof v === 'object'` (arrays and `null` included). -/
def typeofObject : JSVal → Bool
  | .nullV => true
  | .arrV _ => true
  | .objV _ => true
  | _ => false

/-- `Array.isArray(v)`. -/
def isArray : JSVal → Bool
  | .arrV _ => true
  | _ => false

/-- `typeof v === 'number'`. -/
def isNumber : JSVal → Bool
  | .numV _ => true
  | _ => false

/-- `typeof v === 'boolean'`. -/
def isBoolean : JSVal → Bool
  | .boolV _ => true
  | _ => false

/-- Property access `v[key]` on the validator's payloads. -/
def getField : JSVal → String → JSVal
  | .objV fields, key =>
      match fields.find? (fun p => p.1 == key) with
      | some p => p.2
      | none => .undefinedV
  | _, _ => .undefinedV

/-- The element list of an array value. -/
def arrayItems : JSVal → List JSVal
  | .arrV xs => xs
  | _ => []

/-- The snapshot validator `validateBrainData`: rejects non-object
payloads, missing `nodes`/`connections` arrays, non-numeric
`gp`/`fitness`/`age`, any node failing
`!node.id || !node.type || !node.activation` or the numeric checks on
`bias`/`threshold`, and any connection failing
`!conn.id || !conn.from || !conn.to` or the numeric/boolean checks on
`weight`/`plasticity`/`enabled`. -/
def validateBrainData (data : JSVal) : Bool :=
  if !truthy data || !typeofObject data then false
  else if !isArray (getField data "nodes") || !isArray (getField data "connections") then
    false
  else if !isNumber (getField data "gp") || !isNumber (getField data "fitness") ||
      !isNumber (getField data "age") then false
  else if !(arrayItems (getField data "nodes")).all (fun node =>
      truthy (getField node "id") && truthy (getField node "type") &&
      truthy (getField node "activation") && isNumber (getField node "bias") &&
      isNumber (getField node "threshold")) then false
  else if !(arrayItems (getField data "connections")).all (fun conn =>
      truthy (getField conn "id") && truthy (getField conn "from") &&
      truthy (getField conn "to") && isNumber (getField conn "weight") &&
      isNumber (getField conn "plasticity") && isBoolean (getField conn "enabled")) then
    false
  else true

/-- A non-empty string value, the spec's reading of "non-empty
`type`/`activation`". -/
def nonEmptyString : JSVal → Bool
  | .strV s => !s.isEmpty
  | _ => false

/-- Modelled from the spec's words, the acceptance rule of C3: payload
is an object; `nodes` and `connections` are arrays; `gp`, `fitness`,
`age` are numbers; every node has numeric `bias`/`threshold` and
non-empty `type`/`activation`; every connection has numeric
`weight`/`plasticity` and boolean `enabled` — to be compared with
`validateBrainData`. -/
def specValidationRule (data : JSVal) : Bool :=
  typeofObject data && truthy data &&
  isArray (getField data "nodes") && isArray (getField data "connections") &&
  isNumber (getField data "gp") && isNumber (getField data "fitness") &&
  isNumber (getField data "age") &&
  (arrayItems (getField data "nodes")).all (fun node =>
    isNumber (getField node "bias") && isNumber (getField node "threshold") &&
    nonEmptyString (getField node "type") && nonEmptyString (getField node "activation")) &&
  (arrayItems (getField data "connections")).all (fun conn =>
    isNumber (getField conn "weight") && isNumber (getField conn "plasticity") &&
    isBoolean (getField conn "enabled"))

/-- A payload satisfying the spec's rule whose single node carries the
legal numeric id `0`. -/
def zeroIdPayload : JSVal :=
  .objV
    [ ("nodes", .arrV
        [ .objV
            [ ("id", .numV 0), ("type", .strV "input"),
              ("activation", .strV "sigmoid"), ("bias", .numV 1),
              ("threshold", .numV 1) ] ])
    , ("connections", .arrV [])
    , ("gp", .numV 1), ("fitness", .numV 1), ("age", .numV 1) ]

/-- C3 counterexample: `zeroIdPayload` satisfies every condition of the
claim's acceptance rule, yet the validator rejects it (its node-loop
also requires a *truthy* `id`, and `0` is falsy) — so acceptance is
not equivalent to the claim's rule. -/
theorem validateBrainData_not_iff_spec_rule :
    specValidationRule zeroIdPayload = true ∧
    validateBrainData zeroIdPayload = false ∧
    ¬(validateBrainData zeroIdPayload = true ↔ specValidationRule zeroIdPayload = true) := by
  refine ⟨rfl, rfl, ?_⟩
  intro h
  have hv := h.mpr rfl
  have hf : validateBrainData zeroIdPayload = false := rfl
  rw [hf] at hv
  exact Bool.false_ne_true hv

/-- C3 (amended): the validator accepts a payload iff it is a truthy
value of object type, `nodes` and `connections` are arrays, `gp`,
`fitness` and `age` are numbers, every node has truthy `id`, `type`
and `activation` (JavaScript truthiness, not merely non-empty
strings) and numeric `bias`/`threshold`, and every connection has
truthy `id`, `from` and `to`, numeric `weight`/`plasticity` and
boolean `enabled`. -/
def amendedValidationRule (data : JSVal) : Prop :=
  truthy data = true ∧ typeofObject data = true ∧
  isArray (getField data "nodes") = true ∧
  isArray (getField data "connections") = true ∧
  isNumber (getField data "gp") = true ∧
  isNumber (getField data "fitness") = true ∧
  isNumber (getField data "age") = true ∧
  (∀ node ∈ arrayItems (getField data "nodes"),
    truthy (getField node "id") = true ∧ truthy (getField node "type") = true ∧
    truthy (getField node "activation") = true ∧
    isNumber (getField node "bias") = true ∧
    isNumber (getField node "threshold") = true) ∧
  (∀ conn ∈ arrayItems (getField data "connections"),
    truthy (getField conn "id") = true ∧ truthy (getField conn "from") = true ∧
    truthy (getField conn "to") = true ∧ isNumber (getField conn "weight") = true ∧
    isNumber (getField conn "plasticity") = true ∧
    isBoolean (getField conn "enabled") = true)

/-- C3 (amended) theorem: the validator accepts exactly the payloads
satisfying `amendedValidationRule`; every rejected payload is thus
turned into a validation error before the graph engine sees it. -/
theorem validateBrainData_iff_amended_rule (data : JSVal) :
    validateBrainData data = true ↔ amendedValidationRule data := by
  unfold validateBrainData amendedValidationRule
  split_ifs with h1 h2 h3 h4 h5
  · refine iff_of_false (by simp) ?_
    rintro ⟨ha, hb, -⟩
    simp [Bool.or_eq_true, Bool.not_eq_true', ha, hb] at h1
  · refine iff_of_false (by simp) ?_
    rintro ⟨-, -, hc, hd, -⟩
    simp [Bool.or_eq_true, Bool.not_eq_true', hc, hd] at h2
  · refine iff_of_false (by simp) ?_
    rintro ⟨-, -, -, -, he, hf, hg, -⟩
    simp [Bool.or_eq_true, Bool.not_eq_true', he, hf, hg] at h3
  · refine iff_of_false (by simp) ?_
    rintro ⟨-, -, -, -, -, -, -, hn, -⟩
    simp only [Bool.not_eq_true', List.all_eq_false] at h4
    obtain ⟨node, hmem, hnp⟩ := h4
    have := hn node hmem
    simp only [Bool.and_eq_true, not_and] at hnp
    tauto
  · refine iff_of_false (by simp) ?_
    rintro ⟨-, -, -, -, -, -, -, -, hcn⟩
    simp only [Bool.not_eq_true', List.all_eq_false] at h5
    obtain ⟨conn, hmem, hcp⟩ := h5
    have := hcn conn hmem
    simp only [Bool.and_eq_true, not_and] at hcp
    tauto
  · refine iff_of_true rfl ?_
    simp only [Bool.not_eq_true, Bool.or_eq_true, Bool.not_eq_true', not_or,
      Bool.not_eq_false, List.all_eq_true, Bool.and_eq_true] at h1 h2 h3 h4 h5
    refine ⟨h1.1, h1.2, h2.1, h2.2, h3.1.1, h3.1.2, h3.2, ?_, ?_⟩
    · intro node hmem
      have := h4 node hmem
      tauto
    · intro conn hmem
      have := h5 conn hmem
      tauto

/-- An in-flight snapshot request: the effect run (epoch) whose closure
issued it, and the brain id it was issued for. -/
structure FetchRequest where
  epoch : Nat
  id : Nat
deriving DecidableEq

/-- State of the snapshot loader: the currently requested `brainId`
prop, the epoch of the latest effect run (each cleanup retires the
previous closure's `isMounted` flag, modelled by bumping the epoch),
whether the component is still mounted, the in-flight requests, and
the id of the snapshot currently stored in `brainData` (or `none`). -/
structure LoaderState where
  requestedId : Nat
  epoch : Nat
  mounted : Bool
  inflight : List FetchRequest
  brainData : Option Nat
deriving DecidableEq

/-- Events the loader effect reacts to: a change of the `brainId` prop
(re-running the effect after the previous cleanup), an unmount
(running the cleanup alone), and the arrival of a response for an
in-flight request. -/
inductive LoaderEvent where
  | changeId (newId : Nat)
  | unmount
  | resolve (r : FetchRequest)

/-- Loader state at mount time, before the first effect run. -/
def loaderInit : LoaderState :=
  { requestedId := 0, epoch := 0, mounted := true, inflight := [], brainData := none }

/-- One transition of the loader. A `brainId` change (only deliverable
while mounted) runs the previous effect's cleanup — setting that
closure's `isMounted` to false, i.e. retiring its epoch — and then the
new effect, which fetches only under
`brainId && (!brainData || brainData.id !== brainId)`. An unmount runs
the cleanup alone. A response is applied (`setBrainData`) only if the
issuing closure's `isMounted` is still true, i.e. its epoch is still
the current one. -/
def loaderStep (s : LoaderState) (e : LoaderEvent) : LoaderState :=
  match e with
  | .changeId n =>
      if s.mounted then
        let ep := s.epoch + 1
        { requestedId := n
          epoch := ep
          mounted := true
          inflight :=
            if n ≠ 0 ∧ s.brainData ≠ some n then { epoch := ep, id := n } :: s.inflight
            else s.inflight
          brainData := s.brainData }
      else s
  | .unmount => { s with epoch := s.epoch + 1, mounted := false }
  | .resolve r =>
      if r ∈ s.inflight then
        { s with
          inflight := s.inflight.erase r
          brainData := if r.epoch = s.epoch then some r.id else s.brainData }
      else s

/-- The loader state reached from mount by a list of events. -/
def loaderRun (es : List LoaderEvent) : LoaderState :=
  es.foldl loaderStep loaderInit

/-- Loader invariant: every in-flight request was issued at or before
the current epoch; a request whose epoch is still current was issued
for the currently requested id; and after unmount no in-flight request
has the current epoch. -/
def LoaderInv (s : LoaderState) : Prop :=
  (∀ r ∈ s.inflight, r.epoch ≤ s.epoch ∧ (r.epoch = s.epoch → r.id = s.requestedId)) ∧
  (s.mounted = false → ∀ r ∈ s.inflight, r.epoch < s.epoch)

theorem loaderStep_inv (s : LoaderState) (e : LoaderEvent) (h : LoaderInv s) :
    LoaderInv (loaderStep s e) := by
  obtain ⟨h1, h2⟩ := h
  cases e with
  | changeId n =>
    by_cases hm : s.mounted
    · simp only [loaderStep, hm, if_true]
      constructor
      · intro r hr
        dsimp only at hr ⊢
        by_cases hcond : n ≠ 0 ∧ s.brainData ≠ some n
        · rw [if_pos hcond] at hr
          rcases List.mem_cons.mp hr with hr | hr
          · subst hr
            exact ⟨le_refl _, fun _ => rfl⟩
          · have := h1 r hr
            exact ⟨by omega, fun heq => absurd heq (by omega)⟩
        · rw [if_neg hcond] at hr
          have := h1 r hr
          exact ⟨by omega, fun heq => absurd heq (by omega)⟩
      · intro hfalse
        exact absurd hfalse (by simp)
    · simpa [loaderStep, hm] using ⟨h1, h2⟩
  | unmount =>
    refine ⟨?_, ?_⟩
    · intro r hr
      dsimp only [loaderStep] at hr ⊢
      have := h1 r hr
      exact ⟨by omega, fun heq => absurd heq (by omega)⟩
    · intro _ r hr
      dsimp only [loaderStep] at hr ⊢
      have := h1 r hr
      omega
  | resolve r =>
    by_cases hmem : r ∈ s.inflight
    · simp only [loaderStep, hmem, if_true]
      refine ⟨?_, ?_⟩
      · intro q hq
        dsimp only at hq ⊢
        exact h1 q (List.mem_of_mem_erase hq)
      · intro hmm q hq
        dsimp only at hmm hq ⊢
        exact h2 hmm q (List.mem_of_mem_erase hq)
    · simpa [loaderStep, hmem] using ⟨h1, h2⟩

theorem loaderRun_inv (es : List LoaderEvent) : LoaderInv (loaderRun es) := by
  suffices h : ∀ s, LoaderInv s → LoaderInv (es.foldl loaderStep s) by
    refine h loaderInit ⟨?_, ?_⟩
    · intro r hr
      simp [loaderInit] at hr
    · intro hm r hr
      simp [loaderInit] at hr
  induction es with
  | nil => exact fun s hs => hs
  | cons e rest ih =>
    intro s hs
    exact ih _ (loaderStep_inv s e hs)

/-- C9: in every interleaving of id changes, unmount and response
arrivals, a response can only ever be applied for the currently
requested id — after an unmount a response is never applied at all,
and whenever applying a response changes the stored snapshot, the
response's id is the one currently requested (so a fetch superseded by
a request for a different id never sets the snapshot state). -/
theorem stale_response_never_applied (es : List LoaderEvent) (r : FetchRequest) :
    ((loaderRun es).mounted = false →
      (loaderStep (loaderRun es) (.resolve r)).brainData = (loaderRun es).brainData) ∧
    ((loaderStep (loaderRun es) (.resolve r)).brainData ≠ (loaderRun es).brainData →
      r.id = (loaderRun es).requestedId ∧
      (loaderStep (loaderRun es) (.resolve r)).brainData =
        some (loaderRun es).requestedId) := by
  obtain ⟨h1, h2⟩ := loaderRun_inv es
  set s := loaderRun es with hs
  constructor
  · intro hm
    by_cases hmem : r ∈ s.inflight
    · have hlt : r.epoch < s.epoch := h2 hm r hmem
      have hne : ¬r.epoch = s.epoch := by omega
      simp [loaderStep, hmem, hne]
    · simp [loaderStep, hmem]
  · intro happ
    by_cases hmem : r ∈ s.inflight
    · by_cases hep : r.epoch = s.epoch
      · have hid : r.id = s.requestedId := (h1 r hmem).2 hep
        refine ⟨hid, ?_⟩
        simp [loaderStep, hmem, hep, hid]
      · exact absurd (by simp [loaderStep, hmem, hep]) happ
    · exact absurd (by simp [loaderStep, hmem]) happ

/-- C9 witness: instantiates `stale_response_never_applied` on the
trace that requests brain 7 and resolves its (still current) request,
discharging the applied-response hypothesis. -/
theorem stale_response_never_applied_witness :
    (loaderStep (loaderRun [LoaderEvent.changeId 7])
        (.resolve { epoch := 1, id := 7 })).brainData ≠
      (loaderRun [LoaderEvent.changeId 7]).brainData ∧
    (loaderStep (loaderRun [LoaderEvent.changeId 7])
        (.resolve { epoch := 1, id := 7 })).brainData =
      some (loaderRun [LoaderEvent.changeId 7]).requestedId := by
  have happ : (loaderStep (loaderRun [LoaderEvent.changeId 7])
      (.resolve { epoch := 1, id := 7 })).brainData ≠
      (loaderRun [LoaderEvent.changeId 7]).brainData := by decide
  exact ⟨happ,
    (stale_response_never_applied [LoaderEvent.changeId 7] { epoch := 1, id := 7 }).2
      happ |>.2⟩
